import Mathlib

/-!
Shallow embedding of the sclik decentralized terminal social network client
(source: app/main.py and app/ipfs_setup_handler.py).

External effects (subprocess calls to the ipfs CLI and systemctl, stdin
prompts) are modelled by an environment of oracles; the durable local state
(the sqlite posts and follows tables, the per-user profile JSON files, and
config.json) is an explicit record threaded through the operations.
Operations that can terminate the process (a failed daemon setup raises and
aborts) are modelled with Except, the error carrying the partially mutated
state at the point of the abort.
-/

namespace Sclik

/-- One row of the sqlite posts table: (user, content, timestamp, ipfs_hash).
The timestamp is modelled as an integer; the claims only depend on its
linear order. A missing ipfs hash (NULL) is none. -/
structure PostRow where
  user : String
  content : String
  timestamp : Int
  ipfs_hash : Option String
  deriving DecidableEq

/-- The on-disk profile JSON written by update_profile:
{"username": ..., "posts": [...]}. -/
structure Profile where
  username : String
  posts : List String
  deriving DecidableEq

/-- config.json. The profile_hash field may be absent (outer none) or
present with value null (some none) or a hash (some (some h)). -/
structure Config where
  username : Option String
  profile_hash : Option (Option String)
  deriving DecidableEq

/-- The durable local state: config.json, the profile files keyed by
username, the posts table (in insertion order), and the follows table
(username primary key). -/
structure State where
  config : Option Config
  profiles : List (String × Profile)
  posts : List PostRow
  follows : List (String × String)
  deriving DecidableEq

/-- A remote profile document as parsed by json.loads: either field may be
absent (follow errors on a missing username; view_feed defaults posts
to []). -/
structure ProfileDoc where
  username : Option String
  posts : Option (List String)
  deriving DecidableEq

/-- A feed entry (user, content, timestamp) as displayed by view_feed. -/
structure FeedRow where
  user : String
  content : String
  timestamp : Int
  deriving DecidableEq

/-- Outcome of `ipfs cat <profile-hash>` followed by json.loads in follow /
view_feed: a subprocess failure (CalledProcessError), a parse/shape failure
(json.loads or attribute errors), or a parsed document. -/
inductive ProfileFetch where
  | procErr
  | parseErr
  | ok (doc : ProfileDoc)
  deriving DecidableEq

/-- Outcome of `ipfs cat <post-hash>` followed by json.loads and the three
key lookups in view_feed. procErr is a CalledProcessError (caught by the
inner per-post handler); parseErr covers a json decode error or a missing
key (both escape the inner handler and reach the per-peer handler). -/
inductive PostFetch where
  | procErr
  | parseErr
  | ok (row : FeedRow)
  deriving DecidableEq

/-! ## Daemon supervisor (app/ipfs_setup_handler.py) -/

/-- Environment probed by IpfsSetupHandler. Liveness probes are indexed by
the order in which they are made during one ensure_running call, so the
world may change while the supervisor polls. -/
structure DaemonEnv where
  systemctlPresent : Bool
  sysActive : Nat → Bool
  manualOk : Nat → Bool
  binExists : Bool
  repoExists : Bool
  installOk : Bool
  initOk : Bool
  registerOk : Bool

/-- Side effects ensure_running can perform: install_ipfs, the
`ipfs init` inside init_ipfs, and setup_service. -/
inductive Effect where
  | install
  | initRepo
  | register
  deriving DecidableEq

/-- Fatal outcomes of ensure_running: the three sys.exit(1) sites and the
RuntimeError after the 30-probe polling loop. -/
inductive DaemonError where
  | installFailed
  | initFailed
  | registerFailed
  | timeout
  deriving DecidableEq

/-- is_running: ask systemctl whether the unit is active; if systemctl is
absent from the environment, fall back to `ipfs swarm peers`
(_manual_check). `n` is the probe index within the current call. -/
def is_running (env : DaemonEnv) (n : Nat) : Bool :=
  if env.systemctlPresent then env.sysActive n else env.manualOk n

/-- The `for _ in range(30)` polling loop: probe indices idx, idx+1, ...;
true iff some probe within the fuel bound reports active. -/
def pollActive (env : DaemonEnv) : Nat → Nat → Bool
  | _, 0 => false
  | idx, fuel + 1 => if is_running env idx then true else pollActive env (idx + 1) fuel

/-- ensure_running: returns success or the fatal error, together with the
list of install/init/register side effects performed. Probe 0 is the
initial fast-path check, probe 1 the check guarding setup_service, and
probes 2..31 the polling loop. -/
def ensure_running (env : DaemonEnv) : Except DaemonError Unit × List Effect :=
  if is_running env 0 then (Except.ok (), [])
  else
    let instEff : List Effect := if env.binExists then [] else [Effect.install]
    if !env.binExists && !env.installOk then
      (Except.error DaemonError.installFailed, instEff)
    else
      let initEff : List Effect := if env.repoExists then [] else [Effect.initRepo]
      if !env.repoExists && !env.initOk then
        (Except.error DaemonError.initFailed, instEff ++ initEff)
      else if is_running env 1 then
        if pollActive env 2 30 then (Except.ok (), instEff ++ initEff)
        else (Except.error DaemonError.timeout, instEff ++ initEff)
      else if !env.registerOk then
        (Except.error DaemonError.registerFailed, instEff ++ initEff ++ [Effect.register])
      else if pollActive env 2 30 then
        (Except.ok (), instEff ++ initEff ++ [Effect.register])
      else
        (Except.error DaemonError.timeout, instEff ++ initEff ++ [Effect.register])

/-! ## Environment for the main operations (app/main.py) -/

/-- Oracles for the external calls made by main.py. Option-valued fields
are none when the corresponding check=True subprocess call would raise
CalledProcessError. -/
structure Env where
  daemon : DaemonEnv
  inputUsername : String
  addPost : Option String
  keyList : Option (List String)
  keyGenOk : Bool
  keyListL : Option (List (List String))
  addProfile : Option String
  publishOk : Bool
  resolve : String → Option String
  catProfile : String → ProfileFetch
  catPost : String → PostFetch

/-- Whether the daemon setup performed at the top of every operation
succeeds in this environment. -/
def daemonOk (env : Env) : Bool :=
  match (ensure_running env.daemon).1 with
  | Except.ok _ => true
  | Except.error _ => false

/-- Association-list lookup by string key (first match), modelling a read
of the uniquely keyed profile file / follows row. -/
def lookupAssoc {α : Type} : List (String × α) → String → Option α
  | [], _ => none
  | r :: t, k => if r.1 = k then some r.2 else lookupAssoc t k

/-- Keyed overwrite: replace the entry for k if present, else append.
Models writing the profile file for a username and the
INSERT OR REPLACE on the follows primary key (row order is irrelevant to
every claim). -/
def upsertAssoc {α : Type} : List (String × α) → String → α → List (String × α)
  | [], k, v => [(k, v)]
  | r :: t, k, v => if r.1 = k then (k, v) :: t else r :: upsertAssoc t k v

/-- get_own_username acting on the config component: return the stored
username if present, else prompt and write a fresh {"username": u} config
(dropping any other field). -/
def gu_result (env : Env) (cfg : Option Config) : String × Option Config :=
  match cfg with
  | some c =>
    match c.username with
    | some u => (u, some c)
    | none => (env.inputUsername, some ⟨some env.inputUsername, none⟩)
  | none => (env.inputUsername, some ⟨some env.inputUsername, none⟩)

/-- get_own_username: reads (and possibly rewrites) only config.json. -/
def get_own_username (env : Env) (st : State) : String × State :=
  ((gu_result env st.config).1, { st with config := (gu_result env st.config).2 })

/-! ## update_profile -/

/-- update_profile. Loads the on-disk profile (or an empty one), appends
post_hash when it is a nonempty string not already present, writes the
profile back unconditionally, then runs the IPFS try-block: key list,
key gen if the username has no key, key list -l, `ipfs add` of the profile
(whose output becomes ipfs_hash), and the IPNS publish. A
CalledProcessError anywhere in the block is caught, leaving ipfs_hash at
whatever was assigned so far; in particular a failed IPNS publish does not
reset the already assigned add result. Finally config.json's profile_hash
is set to ipfs_hash and ipfs_hash is returned. A failed daemon setup
aborts after the profile write but before the config write. -/
def update_profile (env : Env) (st : State) (u : String) (post_hash : Option String) :
    Except State (Option String × State) :=
  let p0 := (lookupAssoc st.profiles u).getD ⟨u, []⟩
  let posts1 :=
    match post_hash with
    | some h => if h ≠ "" ∧ h ∉ p0.posts then p0.posts ++ [h] else p0.posts
    | none => p0.posts
  let st1 := { st with profiles := upsertAssoc st.profiles u { p0 with posts := posts1 } }
  if daemonOk env then
    let ipfs_hash : Option String :=
      match env.keyList with
      | none => none
      | some keys =>
        if keys.contains u || env.keyGenOk then
          match env.keyListL with
          | none => none
          | some _ =>
            match env.addProfile with
            | none => none
            | some h => some h
        else none
    let c0 := st1.config.getD ⟨some u, none⟩
    let st2 := { st1 with config := some { c0 with profile_hash := some ipfs_hash } }
    Except.ok (ipfs_hash, st2)
  else Except.error st1

/-- The value update_profile's try-block leaves in ipfs_hash, written out
separately: none iff the key-list, key-gen or store-add step failed, else
the store-add result. Note it does not depend on the publish outcome. -/
def storeAddOutcome (env : Env) (u : String) : Option String :=
  match env.keyList with
  | none => none
  | some keys =>
    if keys.contains u || env.keyGenOk then
      match env.keyListL with
      | none => none
      | some _ => env.addProfile
    else none

/-! ## post -/

/-- post: resolve the username, build the post with the current timestamp,
best-effort `ipfs add` of the serialized post (none on failure), insert the
row into the posts table unconditionally, then update the profile. A
failed daemon setup aborts before anything besides the username prompt's
config write. -/
def post (env : Env) (st : State) (content : String) (now : Int) : Except State State :=
  let r := get_own_username env st
  if daemonOk env then
    let h := env.addPost
    let st2 := { r.2 with posts := r.2.posts ++ [⟨r.1, content, now, h⟩] }
    match update_profile env st2 r.1 h with
    | Except.ok (_, st3) => Except.ok st3
    | Except.error st3 => Except.error st3
  else Except.error r.2

/-! ## follow -/

/-- The distinguishable outcomes printed by follow: success with the
discovered username, a CalledProcessError while resolving or fetching,
another error while parsing, or the ValueError for a missing/empty
username. -/
inductive FollowOutcome where
  | ok (u : String)
  | procErr
  | otherErr
  | noUsername
  deriving DecidableEq

/-- follow: resolve the IPNS key, strip the /ipfs/ path part, fetch and
parse the profile, error if it declares no (nonempty) username, else
INSERT OR REPLACE the (username, key) row. Every error is caught and
leaves the follows table unchanged. -/
def follow (env : Env) (st : State) (key : String) : Except State (FollowOutcome × State) :=
  let r := get_own_username env st
  if daemonOk env then
    match env.resolve key with
    | none => Except.ok (FollowOutcome.procErr, r.2)
    | some path =>
      match env.catProfile (String.replace path "/ipfs/" "") with
      | ProfileFetch.procErr => Except.ok (FollowOutcome.procErr, r.2)
      | ProfileFetch.parseErr => Except.ok (FollowOutcome.otherErr, r.2)
      | ProfileFetch.ok doc =>
        match doc.username with
        | none => Except.ok (FollowOutcome.noUsername, r.2)
        | some u =>
          if u = "" then Except.ok (FollowOutcome.noUsername, r.2)
          else Except.ok (FollowOutcome.ok u, { r.2 with follows := upsertAssoc r.2.follows u key })
  else Except.error r.2

/-- The username follow would discover and record for a key in this
environment, or none when any step of the resolve/fetch/validate chain
fails. -/
def follow_discovered (env : Env) (key : String) : Option String :=
  match env.resolve key with
  | none => none
  | some path =>
    match env.catProfile (String.replace path "/ipfs/" "") with
    | ProfileFetch.ok doc =>
      match doc.username with
      | some u => if u = "" then none else some u
      | none => none
    | _ => none

/-! ## view_feed -/

/-- The comparison key of the final posts.sort: ascending timestamp. -/
def leTs (a b : FeedRow) : Bool := decide (a.timestamp ≤ b.timestamp)

/-- The ORDER BY timestamp ASC comparison on stored rows. -/
def leRow (a b : PostRow) : Bool := decide (a.timestamp ≤ b.timestamp)

/-- Projection SELECT user, content, timestamp. -/
def toFeedRow (p : PostRow) : FeedRow := ⟨p.user, p.content, p.timestamp⟩

/-- The inner per-post loop over a peer profile's post hash list: a
CalledProcessError on one hash is caught and that post skipped; a parse or
key error escapes to the per-peer handler, abandoning the remaining hashes
of this peer (posts appended so far are kept). -/
def fetchPosts (env : Env) : List String → List FeedRow
  | [] => []
  | h :: t =>
    match env.catPost h with
    | PostFetch.ok row => row :: fetchPosts env t
    | PostFetch.procErr => fetchPosts env t
    | PostFetch.parseErr => []

/-- The rows one followed peer contributes to the feed: nothing when the
stored key is empty, the IPNS resolve fails, or the profile fetch/parse
fails; otherwise the per-post loop over the profile's posts list
(defaulted to [] when the field is absent). -/
def peerRows (env : Env) (f : String × String) : List FeedRow :=
  if f.2 = "" then []
  else
    match env.resolve f.2 with
    | none => []
    | some path =>
      match env.catProfile (String.replace path "/ipfs/" "") with
      | ProfileFetch.procErr => []
      | ProfileFetch.parseErr => []
      | ProfileFetch.ok doc => fetchPosts env (doc.posts.getD [])

/-- The combined list built before the final sort: the local posts as
returned by ORDER BY timestamp ASC, then each followed peer's rows in
table order. -/
def collectRows (env : Env) (st : State) : List FeedRow :=
  (st.posts.mergeSort leRow).map toFeedRow ++ st.follows.flatMap (peerRows env)

/-- Python's posts[-limit:] for an arbitrary integer limit: for a positive
limit the trailing limit entries, but for limit = 0 the whole list
(posts[-0:] is posts[0:]) and for negative limit a drop from the front. -/
def pyTail (limit : Int) (l : List FeedRow) : List FeedRow :=
  let n : Int := l.length
  let s : Int := if 0 < limit then max (n - limit) 0 else min (-limit) n
  l.drop s.toNat

/-- Modelled from the spec's words: "return only the trailing `limit`
entries" of a sequence. -/
def specTrailing (limit : Nat) (l : List FeedRow) : List FeedRow :=
  l.drop (l.length - limit)

/-- view_feed: collect local and peer rows, stable-sort by timestamp
(Python's list.sort is a stable merge sort), and display posts[-limit:].
A failed daemon setup aborts the invocation. -/
def view_feed (env : Env) (st : State) (limit : Int) : Except State (List FeedRow) :=
  let r := get_own_username env st
  if daemonOk env then
    Except.ok (pyTail limit ((collectRows env r.2).mergeSort leTs))
  else Except.error r.2

/-! ## Concrete environments and states used by witnesses -/

/-- A daemon environment whose very first liveness probe reports active. -/
def fastDaemon : DaemonEnv :=
  ⟨true, fun _ => true, fun _ => false, true, true, true, true, true⟩

/-- Daemon active, every network-facing oracle failing. -/
def envOffline : Env :=
  { daemon := fastDaemon
    inputUsername := "me"
    addPost := none
    keyList := none
    keyGenOk := false
    keyListL := none
    addProfile := none
    publishOk := false
    resolve := fun _ => none
    catProfile := fun _ => ProfileFetch.procErr
    catPost := fun _ => PostFetch.procErr }

/-- Fresh state with a configured username. -/
def stEmpty : State := ⟨some ⟨some "me", none⟩, [], [], []⟩

/-! ## Helper lemmas -/

theorem storeAddOutcome_match_eq (env : Env) (u : String) :
    (match env.keyList with
     | none => none
     | some keys =>
       if keys.contains u || env.keyGenOk then
         match env.keyListL with
         | none => none
         | some _ =>
           match env.addProfile with
           | none => none
           | some h => some h
       else none) = storeAddOutcome env u := by
  unfold storeAddOutcome
  cases env.keyList with
  | none => rfl
  | some keys =>
    simp only
    split
    · cases env.keyListL with
      | none => rfl
      | some kl => cases env.addProfile <;> rfl
    · rfl

theorem update_profile_eq_of_daemonOk (env : Env) (st : State) (u : String)
    (ph : Option String) (hd : daemonOk env = true) :
    update_profile env st u ph =
      Except.ok (storeAddOutcome env u,
        { config := some { (st.config.getD ⟨some u, none⟩) with
              profile_hash := some (storeAddOutcome env u) }
          profiles := upsertAssoc st.profiles u
            { ((lookupAssoc st.profiles u).getD ⟨u, []⟩) with posts :=
                match ph with
                | some h =>
                  if h ≠ "" ∧ h ∉ ((lookupAssoc st.profiles u).getD ⟨u, []⟩).posts
                  then ((lookupAssoc st.profiles u).getD ⟨u, []⟩).posts ++ [h]
                  else ((lookupAssoc st.profiles u).getD ⟨u, []⟩).posts
                | none => ((lookupAssoc st.profiles u).getD ⟨u, []⟩).posts }
          posts := st.posts
          follows := st.follows }) := by
  unfold update_profile
  rw [hd]
  simp only [if_true, storeAddOutcome_match_eq]

theorem update_profile_isOk (env : Env) (st : State) (u : String) (ph : Option String)
    (hd : daemonOk env = true) :
    ∃ st', update_profile env st u ph = Except.ok (storeAddOutcome env u, st') ∧
      st'.posts = st.posts ∧ st'.follows = st.follows ∧
      st'.config = some { (st.config.getD ⟨some u, none⟩) with
        profile_hash := some (storeAddOutcome env u) } :=
  ⟨_, update_profile_eq_of_daemonOk env st u ph hd, rfl, rfl, rfl⟩

theorem storeAddOutcome_none_of_add_none (env : Env) (u : String)
    (h : env.addProfile = none) : storeAddOutcome env u = none := by
  unfold storeAddOutcome
  cases env.keyList with
  | none => rfl
  | some keys =>
    simp only
    split
    · cases env.keyListL with
      | none => rfl
      | some kl => exact h
    · rfl

/-! ## Claim C8 -/

/-- Claim C8: whenever the liveness probe reports the service active,
ensure_running returns success immediately and performs zero install,
repo-init, or service-registration side effects; as ensure_running is a
pure function of the probed environment, a second consecutive invocation
while the service is active likewise returns success with no effects. -/
theorem ensure_running_fast_path (env : DaemonEnv) (h : is_running env 0 = true) :
    ensure_running env = (Except.ok (), ([] : List Effect)) := by
  unfold ensure_running
  rw [if_pos h]

theorem ensure_running_fast_path_witness :
    is_running fastDaemon 0 = true ∧
      ensure_running fastDaemon = (Except.ok (), ([] : List Effect)) :=
  ⟨rfl, ensure_running_fast_path fastDaemon rfl⟩

/-! ## Claim C9 -/

/-- Claim C9: every update_profile call (that does not abort in daemon
setup) overwrites config.json's profile_hash with the new snapshot hash —
null (inner none) when the store add step failed — regardless of the
previously stored value, which is thereby lost. -/
theorem update_profile_overwrites_profile_hash (env : Env) (st : State) (u : String)
    (ph : Option String) (hd : daemonOk env = true) :
    ∃ r st', update_profile env st u ph = Except.ok (r, st') ∧
      st'.config = some { (st.config.getD ⟨some u, none⟩) with profile_hash := some r } ∧
      (env.addProfile = none → r = none) := by
  obtain ⟨st', heq, -, -, hcfg⟩ := update_profile_isOk env st u ph hd
  exact ⟨storeAddOutcome env u, st', heq, hcfg,
    fun h => storeAddOutcome_none_of_add_none env u h⟩

/-- State whose config already holds a non-null profile hash. -/
def stOldHash : State := ⟨some ⟨some "me", some (some "QmOld")⟩, [], [], []⟩

theorem update_profile_overwrites_profile_hash_witness :
    ∃ r st', update_profile envOffline stOldHash "me" none = Except.ok (r, st') ∧
      st'.config = some { (stOldHash.config.getD ⟨some "me", none⟩) with
        profile_hash := some r } ∧
      (envOffline.addProfile = none → r = none) :=
  update_profile_overwrites_profile_hash envOffline stOldHash "me" none rfl

/-! ## Claim C3 -/

/-- Environment in which the whole store-add chain succeeds (the snapshot
hash is QmSnap, and an IPNS key K1 exists for alice so the publish is
attempted) but the IPNS publish itself fails. -/
def envPublishFail : Env :=
  { envOffline with
    keyList := some ["alice"]
    keyListL := some [["K1", "alice"]]
    addProfile := some "QmSnap"
    publishOk := false }

/-- Counterexample to claim C3 as stated: the publish of the mutable
pointer fails (publishOk = false) for a user with an existing IPNS key,
yet update_profile returns the snapshot ContentID rather than none — the
return value is the store-add result, not the publish result. -/
theorem update_profile_some_despite_publish_failure :
    envPublishFail.publishOk = false ∧
    ∃ st', update_profile envPublishFail stEmpty "alice" (some "QmPost") =
      Except.ok (some "QmSnap", st') :=
  ⟨rfl, ⟨_, update_profile_eq_of_daemonOk envPublishFail stEmpty "alice" (some "QmPost") rfl⟩⟩

/-- Claim C3 (amended): update_profile returns the ContentID under which
the profile snapshot was added to the store, or none when the key-list,
key-generation, key-list -l or store-add step failed; failure of the IPNS
publish step does not change the returned value. -/
theorem update_profile_returns_store_add_result (env : Env) (st : State) (u : String)
    (ph : Option String) (hd : daemonOk env = true) :
    (∃ st', update_profile env st u ph = Except.ok (storeAddOutcome env u, st')) ∧
    (∀ b, storeAddOutcome { env with publishOk := b } u = storeAddOutcome env u) := by
  obtain ⟨st', heq, -⟩ := update_profile_isOk env st u ph hd
  exact ⟨⟨st', heq⟩, fun b => rfl⟩

theorem update_profile_returns_store_add_result_witness :
    (∃ st', update_profile envPublishFail stEmpty "alice" (some "QmPost") =
      Except.ok (storeAddOutcome envPublishFail "alice", st')) ∧
    (∀ b, storeAddOutcome { envPublishFail with publishOk := b } "alice" =
      storeAddOutcome envPublishFail "alice") :=
  update_profile_returns_store_add_result envPublishFail stEmpty "alice" (some "QmPost") rfl

/-! ## Claim C1 -/

/-- Claim C1: when daemon setup succeeds, post appends exactly one row
(username, content, timestamp, contentId) to the local posts table even
when the store add fails; on store add failure the row's contentId is
none, and the failure is never escalated (post still returns normally). -/
theorem post_appends_one_row (env : Env) (st : State) (content : String) (now : Int)
    (hd : daemonOk env = true) :
    ∃ st', post env st content now = Except.ok st' ∧
      st'.posts = st.posts ++ [⟨(get_own_username env st).1, content, now, env.addPost⟩] ∧
      (env.addPost = none →
        st'.posts = st.posts ++ [⟨(get_own_username env st).1, content, now, none⟩]) := by
  obtain ⟨st3, hup, hposts, -, -⟩ :=
    update_profile_isOk env
      { (get_own_username env st).2 with posts :=
          (get_own_username env st).2.posts ++
            [⟨(get_own_username env st).1, content, now, env.addPost⟩] }
      (get_own_username env st).1 env.addPost hd
  have h2 : st3.posts = st.posts ++
      [⟨(get_own_username env st).1, content, now, env.addPost⟩] := hposts.trans rfl
  refine ⟨st3, ?_, h2, ?_⟩
  · unfold post
    rw [hd]
    simp only [if_true]
    rw [hup]
  · intro hnone
    rw [h2, hnone]

theorem post_appends_one_row_witness :
    ∃ st', post envOffline stEmpty "hello" 5 = Except.ok st' ∧
      st'.posts = stEmpty.posts ++
        [⟨(get_own_username envOffline stEmpty).1, "hello", 5, envOffline.addPost⟩] ∧
      (envOffline.addPost = none →
        st'.posts = stEmpty.posts ++
          [⟨(get_own_username envOffline stEmpty).1, "hello", 5, none⟩]) :=
  post_appends_one_row envOffline stEmpty "hello" 5 rfl

/-! ## Association list lemmas -/

theorem lookupAssoc_upsert {α : Type} (l : List (String × α)) (k : String) (v : α) :
    lookupAssoc (upsertAssoc l k v) k = some v := by
  induction l with
  | nil => simp [upsertAssoc, lookupAssoc]
  | cons r t ih =>
    by_cases hr : r.1 = k
    · simp [upsertAssoc, hr, lookupAssoc]
    · simp [upsertAssoc, hr, lookupAssoc, ih]

theorem mem_keys_upsert {α : Type} (l : List (String × α)) (k : String) (v : α) (x : String)
    (hx : x ∈ (upsertAssoc l k v).map Prod.fst) : x = k ∨ x ∈ l.map Prod.fst := by
  induction l with
  | nil => simpa [upsertAssoc] using hx
  | cons r t ih =>
    by_cases hr : r.1 = k
    · simp only [upsertAssoc, if_pos hr, List.map_cons, List.mem_cons] at hx
      rcases hx with hx | hx
      · exact Or.inl hx
      · exact Or.inr (by simp [hx])
    · simp only [upsertAssoc, if_neg hr, List.map_cons, List.mem_cons] at hx
      rcases hx with hx | hx
      · exact Or.inr (by simp [hx])
      · rcases ih hx with hx | hx
        · exact Or.inl hx
        · exact Or.inr (by simp [hx])

theorem upsert_keys_nodup {α : Type} (l : List (String × α)) (k : String) (v : α)
    (h : (l.map Prod.fst).Nodup) : ((upsertAssoc l k v).map Prod.fst).Nodup := by
  induction l with
  | nil => simp [upsertAssoc]
  | cons r t ih =>
    simp only [List.map_cons, List.nodup_cons] at h
    by_cases hr : r.1 = k
    · simp only [upsertAssoc, if_pos hr, List.map_cons, List.nodup_cons]
      exact ⟨hr ▸ h.1, h.2⟩
    · simp only [upsertAssoc, if_neg hr, List.map_cons, List.nodup_cons]
      refine ⟨?_, ih h.2⟩
      intro hmem
      rcases mem_keys_upsert t k v r.1 hmem with hx | hx
      · exact hr hx
      · exact h.1 hx

theorem filter_upsert_eq {α : Type} (l : List (String × α)) (k : String) (v : α)
    (h : (l.map Prod.fst).Nodup) :
    (upsertAssoc l k v).filter (fun r => r.1 == k) = [(k, v)] := by
  induction l with
  | nil => simp [upsertAssoc]
  | cons r t ih =>
    simp only [List.map_cons, List.nodup_cons] at h
    by_cases hr : r.1 = k
    · have hk : ∀ s ∈ t, ¬(Prod.fst s == k) = true := by
        intro s hs hbeq
        have hs1 : s.1 = k := beq_iff_eq.mp hbeq
        have hmem : s.1 ∈ t.map Prod.fst := List.mem_map_of_mem Prod.fst hs
        rw [hs1, ← hr] at hmem
        exact h.1 hmem
      simp only [upsertAssoc, if_pos hr, List.filter_cons]
      simp only [beq_self_eq_true, if_pos]
      rw [List.filter_eq_nil_iff.mpr hk]
    · simp only [upsertAssoc, if_neg hr, List.filter_cons]
      have : (r.1 == k) = false := beq_eq_false_iff_ne.mpr hr
      simp only [this]
      exact ih h.2

/-! ## Claim C4 -/

/-- Claim C4: update_profile is idempotent at the post-id level — a call
whose ContentID is already in the stored profile's post list leaves the
stored post list unchanged, and more generally no call ever introduces a
duplicate into a duplicate-free post list. -/
theorem update_profile_idempotent_postids (env : Env) (st : State) (u : String)
    (p : Profile) (h : String) (hd : daemonOk env = true)
    (hp : lookupAssoc st.profiles u = some p) (hmem : h ∈ p.posts) :
    (∃ r st', update_profile env st u (some h) = Except.ok (r, st') ∧
       lookupAssoc st'.profiles u = some p) ∧
    (∀ (ph : Option String) (r : Option String) (st' : State),
       update_profile env st u ph = Except.ok (r, st') → p.posts.Nodup →
       ∃ q, lookupAssoc st'.profiles u = some q ∧ q.posts.Nodup) := by
  have hgetD : (lookupAssoc st.profiles u).getD ⟨u, []⟩ = p := by rw [hp]; rfl
  constructor
  · refine ⟨storeAddOutcome env u, _,
      update_profile_eq_of_daemonOk env st u (some h) hd, ?_⟩
    rw [lookupAssoc_upsert]
    simp [hgetD, hmem]
  · intro ph r st' hup hnd
    rw [update_profile_eq_of_daemonOk env st u ph hd] at hup
    injection hup with hpr
    rw [Prod.mk.injEq] at hpr
    obtain ⟨-, hst⟩ := hpr
    rw [← hst]
    refine ⟨_, lookupAssoc_upsert _ _ _, ?_⟩
    rw [hgetD]
    cases ph with
    | none => exact hnd
    | some h' =>
      by_cases hc : h' ≠ "" ∧ h' ∉ p.posts
      · simp only [if_pos hc]
        simp [List.nodup_append, hnd, hc.2]
      · simp only [if_neg hc]
        exact hnd

/-- State whose stored profile for me already lists two post hashes. -/
def stProfile : State :=
  ⟨some ⟨some "me", none⟩, [("me", ⟨"me", ["Qm1", "Qm2"]⟩)], [], []⟩

theorem update_profile_idempotent_postids_witness :
    (∃ r st', update_profile envOffline stProfile "me" (some "Qm1") = Except.ok (r, st') ∧
       lookupAssoc st'.profiles "me" = some ⟨"me", ["Qm1", "Qm2"]⟩) ∧
    (∀ (ph : Option String) (r : Option String) (st' : State),
       update_profile envOffline stProfile "me" ph = Except.ok (r, st') →
       (Profile.mk "me" ["Qm1", "Qm2"]).posts.Nodup →
       ∃ q, lookupAssoc st'.profiles "me" = some q ∧ q.posts.Nodup) :=
  update_profile_idempotent_postids envOffline stProfile "me" ⟨"me", ["Qm1", "Qm2"]⟩
    "Qm1" rfl rfl (by simp)

/-! ## Claim C5 -/

/-- Claim C5: when the resolved profile document lacks a username field,
follow reports the validation error and leaves the follows table
unchanged. -/
theorem follow_missing_username_no_mutation (env : Env) (st : State) (key path : String)
    (doc : ProfileDoc) (hd : daemonOk env = true)
    (hres : env.resolve key = some path)
    (hcat : env.catProfile (String.replace path "/ipfs/" "") = ProfileFetch.ok doc)
    (hu : doc.username = none) :
    ∃ st', follow env st key = Except.ok (FollowOutcome.noUsername, st') ∧
      st'.follows = st.follows := by
  refine ⟨(get_own_username env st).2, ?_, rfl⟩
  unfold follow
  rw [hd]
  simp only [if_true, hres, hcat, hu]

/-- Environment resolving every pointer to a profile document with no
username field. -/
def envNoName : Env :=
  { envOffline with
    resolve := fun _ => some "/ipfs/QmX"
    catProfile := fun _ => ProfileFetch.ok ⟨none, some []⟩ }

theorem follow_missing_username_no_mutation_witness :
    ∃ st', follow envNoName stEmpty "K1" = Except.ok (FollowOutcome.noUsername, st') ∧
      st'.follows = stEmpty.follows :=
  follow_missing_username_no_mutation envNoName stEmpty "K1" "/ipfs/QmX"
    ⟨none, some []⟩ rfl rfl rfl rfl

/-! ## Claim C6 -/

theorem follow_of_discovered (env : Env) (st : State) (key u : String)
    (hd : daemonOk env = true) (h : follow_discovered env key = some u) :
    follow env st key = Except.ok (FollowOutcome.ok u,
      { (get_own_username env st).2 with follows := upsertAssoc st.follows u key }) := by
  unfold follow_discovered at h
  unfold follow
  rw [hd]
  simp only [if_true]
  cases hres : env.resolve key with
  | none => rw [hres] at h; exact absurd h (by simp)
  | some path =>
    simp only [hres] at h
    cases hcat : env.catProfile (String.replace path "/ipfs/" "") with
    | procErr => simp [hcat] at h
    | parseErr => simp [hcat] at h
    | ok doc =>
      simp only [hcat] at h
      cases hu : doc.username with
      | none => simp [hu] at h
      | some u' =>
        simp only [hu] at h
        by_cases hue : u' = ""
        · rw [if_pos hue] at h; exact absurd h (by simp)
        · rw [if_neg hue] at h
          injection h with h'
          subst h'
          simp only [hcat, hu, if_neg hue]
          rfl

/-- Claim C6: two successful follows whose resolved profiles claim the
same username leave exactly one row for that username in the follows
table, mapping to the second pointer (last-write-wins upsert), given the
table's primary-key invariant (no duplicate usernames). -/
theorem follow_last_write_wins (env1 env2 : Env) (st : State) (kA kB u : String)
    (hd1 : daemonOk env1 = true) (hd2 : daemonOk env2 = true)
    (h1 : follow_discovered env1 kA = some u) (h2 : follow_discovered env2 kB = some u)
    (hnd : (st.follows.map Prod.fst).Nodup) :
    ∃ st1 st2, follow env1 st kA = Except.ok (FollowOutcome.ok u, st1) ∧
      follow env2 st1 kB = Except.ok (FollowOutcome.ok u, st2) ∧
      st2.follows.filter (fun r => r.1 == u) = [(u, kB)] := by
  have hf1 := follow_of_discovered env1 st kA u hd1 h1
  have hf2 := follow_of_discovered env2
    { (get_own_username env1 st).2 with follows := upsertAssoc st.follows u kA } kB u hd2 h2
  refine ⟨_, _, hf1, hf2, ?_⟩
  show (upsertAssoc (upsertAssoc st.follows u kA) u kB).filter (fun r => r.1 == u) = [(u, kB)]
  exact filter_upsert_eq _ u kB (upsert_keys_nodup st.follows u kA hnd)

/-- Environment in which every pointer resolves to a profile claiming the
username bob. -/
def envBob : Env :=
  { envOffline with
    resolve := fun k => some ("/ipfs/Qm" ++ k)
    catProfile := fun _ => ProfileFetch.ok ⟨some "bob", some []⟩ }

theorem follow_last_write_wins_witness :
    ∃ st1 st2, follow envBob stEmpty "KA" = Except.ok (FollowOutcome.ok "bob", st1) ∧
      follow envBob st1 "KB" = Except.ok (FollowOutcome.ok "bob", st2) ∧
      st2.follows.filter (fun r => r.1 == "bob") = [("bob", "KB")] :=
  follow_last_write_wins envBob envBob stEmpty "KA" "KB" "bob" rfl rfl rfl rfl
    List.nodup_nil

/-! ## Claim C7 -/

/-- Claim C7: a followed peer whose pointer resolution fails is skipped —
it contributes no rows, and the feed equals the feed computed without that
follow, so the other peers' posts are still merged with the local posts;
a single peer's resolve failure never aborts the feed. -/
theorem view_feed_skips_failed_peer (env : Env) (cfg : Option Config)
    (profiles : List (String × Profile)) (posts : List PostRow)
    (A B : List (String × String)) (u k : String) (limit : Int)
    (hd : daemonOk env = true) (hres : env.resolve k = none) :
    view_feed env ⟨cfg, profiles, posts, A ++ (u, k) :: B⟩ limit =
      view_feed env ⟨cfg, profiles, posts, A ++ B⟩ limit ∧
    peerRows env (u, k) = [] := by
  have hpeer : peerRows env (u, k) = [] := by
    unfold peerRows
    by_cases hk : k = ""
    · simp [hk]
    · simp [hk, hres]
  refine ⟨?_, hpeer⟩
  unfold view_feed
  rw [hd]
  simp only [if_true]
  simp [collectRows, get_own_username, gu_result, List.flatMap_append, List.flatMap_cons, hpeer]

/-- Three followed peers; resolution fails exactly for pointer KBAD. -/
def envPeers : Env :=
  { envOffline with
    resolve := fun k => if k = "KBAD" then none else some ("/ipfs/Qm" ++ k)
    catProfile := fun _ => ProfileFetch.ok ⟨some "peer", some ["H1"]⟩
    catPost := fun _ => PostFetch.ok ⟨"peer", "hi", 3⟩ }

theorem view_feed_skips_failed_peer_witness :
    view_feed envPeers ⟨some ⟨some "me", none⟩, [], [⟨"me", "mine", 1, none⟩],
        [("a", "KA")] ++ ("bad", "KBAD") :: [("b", "KB")]⟩ 10 =
      view_feed envPeers ⟨some ⟨some "me", none⟩, [], [⟨"me", "mine", 1, none⟩],
        [("a", "KA")] ++ [("b", "KB")]⟩ 10 ∧
    peerRows envPeers ("bad", "KBAD") = [] :=
  view_feed_skips_failed_peer envPeers (some ⟨some "me", none⟩) []
    [⟨"me", "mine", 1, none⟩] [("a", "KA")] [("b", "KB")] "bad" "KBAD" 10 rfl rfl

/-! ## Claim C10 -/

/-- Claim C10: in feed aggregation, a per-post fetch failure
(CalledProcessError) skips only that post, while a post document that
fails to parse or lacks a required key abandons the remaining posts of
that peer; peers are processed independently, so aggregation continues
with the next peer either way. -/
theorem feed_post_failure_granularity :
    (∀ (env : Env) (h : String) (t : List String), env.catPost h = PostFetch.procErr →
       fetchPosts env (h :: t) = fetchPosts env t) ∧
    (∀ (env : Env) (h : String) (t : List String), env.catPost h = PostFetch.parseErr →
       fetchPosts env (h :: t) = []) ∧
    (∀ (env : Env) (A B : List (String × String)) (f : String × String),
       (A ++ f :: B).flatMap (peerRows env) =
         A.flatMap (peerRows env) ++ peerRows env f ++ B.flatMap (peerRows env)) := by
  refine ⟨?_, ?_, ?_⟩
  · intro env h t hc
    simp [fetchPosts, hc]
  · intro env h t hc
    simp [fetchPosts, hc]
  · intro env A B f
    simp [List.flatMap_append, List.flatMap_cons, List.append_assoc]

/-- Per-post oracle: hash miss fails with a CalledProcessError, hash bad
fails to parse, anything else fetches. -/
def envMix : Env :=
  { envOffline with
    catPost := fun h =>
      if h = "miss" then PostFetch.procErr
      else if h = "bad" then PostFetch.parseErr
      else PostFetch.ok ⟨"p", h, 1⟩ }

theorem feed_post_failure_granularity_witness :
    fetchPosts envMix ["miss", "g"] = fetchPosts envMix ["g"] ∧
    fetchPosts envMix ["bad", "g"] = [] ∧
    ([("x", "KX")] ++ ("y", "KY") :: []).flatMap (peerRows envMix) =
      [("x", "KX")].flatMap (peerRows envMix) ++ peerRows envMix ("y", "KY") ++
        List.flatMap [] (peerRows envMix) :=
  ⟨feed_post_failure_granularity.1 envMix "miss" ["g"] rfl,
   feed_post_failure_granularity.2.1 envMix "bad" ["g"] rfl,
   feed_post_failure_granularity.2.2 envMix [("x", "KX")] [] ("y", "KY")⟩

/-! ## Claim C2 -/

theorem leTs_trans : ∀ (a b c : FeedRow), leTs a b = true → leTs b c = true →
    leTs a c = true := by
  intro a b c hab hbc
  simp only [leTs, decide_eq_true_eq] at *
  omega

theorem leTs_total : ∀ (a b : FeedRow), (leTs a b || leTs b a) = true := by
  intro a b
  simp only [leTs, Bool.or_eq_true, decide_eq_true_eq]
  omega

/-- For a positive limit, Python's posts[-limit:] is exactly the spec's
trailing-limit suffix. -/
theorem pyTail_pos (limit : Int) (hl : 1 ≤ limit) (l : List FeedRow) :
    pyTail limit l = specTrailing limit.toNat l := by
  have h0 : (0 : Int) < limit := hl
  simp only [pyTail, specTrailing]
  rw [if_pos h0]
  congr 1
  rcases le_total ((l.length : Int) - limit) 0 with h | h
  · rw [max_eq_right h]
    omega
  · rw [max_eq_left h]
    omega

/-- Five local posts with timestamps 1..5 and no follows. -/
def stFive : State :=
  ⟨some ⟨some "me", none⟩, [],
    [⟨"me", "p1", 1, none⟩, ⟨"me", "p2", 2, none⟩, ⟨"me", "p3", 3, none⟩,
     ⟨"me", "p4", 4, none⟩, ⟨"me", "p5", 5, none⟩], []⟩

/-- Claim C2 (amended): for every positive limit, view_feed returns the
trailing limit entries of the stable merge sort of the collected rows by
ascending timestamp — the sorted sequence is pairwise ordered, a
permutation of the collected rows, and stable (any timestamp-respecting
pair keeps its relative order) — and in particular limit = 2 over five
local posts with timestamps [1,2,3,4,5] yields the posts with timestamps
[4,5] in that order. For limit = 0 (and negative limits) the code instead
returns the entire list (Python's posts[-0:]), so the claim's universal
quantification over every limit fails; positivity is required. -/
theorem view_feed_sorted_trailing :
    (∀ (env : Env) (st : State) (limit : Int), daemonOk env = true → 1 ≤ limit →
      view_feed env st limit =
        Except.ok (specTrailing limit.toNat ((collectRows env st).mergeSort leTs)) ∧
      ((collectRows env st).mergeSort leTs).Pairwise
        (fun a b => a.timestamp ≤ b.timestamp) ∧
      ((collectRows env st).mergeSort leTs).Perm (collectRows env st) ∧
      (∀ a b : FeedRow, a.timestamp ≤ b.timestamp →
        List.Sublist [a, b] (collectRows env st) →
        List.Sublist [a, b] ((collectRows env st).mergeSort leTs))) ∧
    view_feed envOffline stFive 2 =
      Except.ok [⟨"me", "p4", 4⟩, ⟨"me", "p5", 5⟩] := by
  constructor
  · intro env st limit hd hl
    have hcoll : collectRows env (get_own_username env st).2 = collectRows env st := rfl
    refine ⟨?_, ?_, ?_, ?_⟩
    · unfold view_feed
      rw [hd]
      simp only [if_true]
      rw [hcoll, pyTail_pos limit hl]
    · exact (List.sorted_mergeSort leTs_trans leTs_total (collectRows env st)).imp
        (fun hab => by simpa [leTs, decide_eq_true_eq] using hab)
    · exact List.mergeSort_perm (collectRows env st) leTs
    · intro a b hab hsub
      exact List.pair_sublist_mergeSort leTs_trans leTs_total (decide_eq_true hab) hsub
  · have h5 : stFive.posts.mergeSort leRow = stFive.posts :=
      List.mergeSort_of_sorted (by decide)
    have hcoll : collectRows envOffline (get_own_username envOffline stFive).2
        = stFive.posts.map toFeedRow := by
      show (stFive.posts.mergeSort leRow).map toFeedRow ++
        List.flatMap [] (peerRows envOffline) = stFive.posts.map toFeedRow
      rw [h5]
      simp
    have hsorted : (stFive.posts.map toFeedRow).mergeSort leTs
        = stFive.posts.map toFeedRow :=
      List.mergeSort_of_sorted (by decide)
    have hvf : view_feed envOffline stFive 2 = Except.ok (pyTail 2
        ((collectRows envOffline (get_own_username envOffline stFive).2).mergeSort leTs)) := by
      unfold view_feed
      rw [show daemonOk envOffline = true from rfl]
      simp only [if_true]
    rw [hvf, hcoll, hsorted]
    rfl

theorem view_feed_sorted_trailing_witness :
    view_feed envOffline stFive 2 =
      Except.ok (specTrailing (2 : Int).toNat
        ((collectRows envOffline stFive).mergeSort leTs)) :=
  (view_feed_sorted_trailing.1 envOffline stFive 2 rfl (by decide)).1

/-- A single local post and no follows. -/
def stOne : State := ⟨some ⟨some "me", none⟩, [], [⟨"me", "solo", 1, none⟩], []⟩

/-- Counterexample to claim C2 as stated: its quantification over every
limit includes limit = 0, where the trailing-0 suffix is empty but the
code's posts[-0:] slice is the whole list — over one local post,
view_feed returns that post rather than the trailing zero entries. -/
theorem view_feed_limit_zero_not_trailing :
    view_feed envOffline stOne 0 ≠
      Except.ok (specTrailing (0 : Int).toNat
        ((collectRows envOffline stOne).mergeSort leTs)) := by
  intro hcontra
  have hL : view_feed envOffline stOne 0 = Except.ok [⟨"me", "solo", 1⟩] := by
    have h1 : collectRows envOffline (get_own_username envOffline stOne).2
        = [⟨"me", "solo", 1⟩] := by
      show (stOne.posts.mergeSort leRow).map toFeedRow ++
        List.flatMap [] (peerRows envOffline) = [⟨"me", "solo", 1⟩]
      rw [show stOne.posts = [⟨"me", "solo", 1, none⟩] from rfl, List.mergeSort_singleton]
      rfl
    unfold view_feed
    rw [show daemonOk envOffline = true from rfl]
    simp only [if_true]
    rw [h1, List.mergeSort_singleton]
    rfl
  have hR : specTrailing (0 : Int).toNat
      ((collectRows envOffline stOne).mergeSort leTs) = [] := by
    have h1 : collectRows envOffline stOne = [⟨"me", "solo", 1⟩] := by
      show (stOne.posts.mergeSort leRow).map toFeedRow ++
        List.flatMap [] (peerRows envOffline) = [⟨"me", "solo", 1⟩]
      rw [show stOne.posts = [⟨"me", "solo", 1, none⟩] from rfl, List.mergeSort_singleton]
      rfl
    rw [h1, List.mergeSort_singleton]
    rfl
  rw [hL, hR] at hcontra
  exact absurd hcontra (by simp)

end Sclik
